import Mathlib

/-!
Shallow embedding of `src/index.js` (api-http-response).

Modelling conventions:
* JS values that the module builds into response bodies and notification
  payloads are modelled by `JsValue`; a JS `undefined` is `JsValue.undefined`.
* Duck-typed request/response objects are modelled by `JsObj`: the only
  field the module ever reads from them is `query` (and `query.lang`).
  `query = none` models an object without a `query` field (as an ordinary
  Express response object); `lang = none` models an absent `lang` query
  parameter.
* Code that can throw is modelled in `Except JsError`; a `TypeError`
  (reading a property of `undefined`) is `JsError.typeError`.
* The locale table `lang.json` is not part of the repository's source
  tree; it is an opaque mapping (spec section 3), so the embedding takes
  it as a parameter `lang : LocaleTable` (an association list).
* `res.status(c).json(b)` / `res.status(c).send(b)` are modelled by the
  emission descriptions `Sent.json c b` / `Sent.send c b`.
* The notifier's transport (`axios.post`) is modelled by an outcome
  stream `g : Nat → Outcome` giving the settlement of the k-th POST of a
  cascade, and a clock `clock : Nat → String` giving the string produced
  by the k-th `format(new Date(), ...)` read inside a catch handler.
  The promise chain hanging off `axios.post` is detached (not returned,
  not awaited), so the promise returned by `custom_notify` itself always
  resolves; the cascade of follow-up notifications is unbounded in the
  source, so the embedding unfolds it up to an explicit `fuel` bound.
* `slugify` operates on JS strings modelled as lists of code points
  (`List Nat`); `toLowerCase` is modelled on the ASCII range.
-/

namespace Api

/-- JS runtime values appearing in response bodies and payloads. -/
inductive JsValue where
  | null
  | undefined
  | bool (b : Bool)
  | num (n : Int)
  | str (s : String)
  | arr (elems : List JsValue)
  | obj (fields : List (String × JsValue))

/-- A JS exception; the module can only raise `TypeError` (property read
on `undefined`). -/
inductive JsError where
  | typeError
deriving DecidableEq

/-- The `query` object of a request: the module only reads its `lang`
property (`none` = property absent / `undefined`). -/
structure QueryObj where
  lang : Option String
deriving DecidableEq

/-- A duck-typed request/response object as the module sees it: the only
property it ever dereferences is `query` (`none` = no such field, as on
an ordinary response object). -/
structure JsObj where
  query : Option QueryObj
deriving DecidableEq

/-- One locale's message map (`lang.json` entry): message key to text. -/
abbrev LocaleMap := List (String × String)

/-- The locale table (`lang.json`): locale code to message map. -/
abbrev LocaleTable := List (String × LocaleMap)

/-- JS property read `m[k]` on a locale map: `none` = `undefined`. -/
def lookupKey (m : LocaleMap) (k : String) : Option String :=
  (m.find? fun p => p.1 == k).map (fun p => p.2)

/-- JS property read `lang[l]` on the locale table: `none` = `undefined`. -/
def lookupLocale (t : LocaleTable) (l : String) : Option LocaleMap :=
  (t.find? fun p => p.1 == l).map (fun p => p.2)

/-- Embeds `handleLanguage` (src/index.js:444-446):
`request.query.lang ? request.query.lang : "eng"`.
Reading `request.query.lang` throws a `TypeError` when the object has no
`query` field; the ternary treats the falsy values `undefined` and `""`
as "absent", yielding `"eng"`. -/
def handleLanguage (request : JsObj) : Except JsError String :=
  match request.query with
  | none => .error .typeError
  | some q =>
    .ok (match q.lang with
         | some s => if s = "" then "eng" else s
         | none => "eng")

/-- Embeds `translate` (src/index.js:430-437).  `handleLanguage` runs
before the `try` block, so its `TypeError` escapes.  Inside the `try`,
`lang[String(language)][message]` (`String` is the identity on the
string `language`) throws only when `lang[language]` is `undefined`
(unknown locale); a known locale with a missing key yields `undefined`
without throwing.  The `catch` returns `lang.eng[message]`, which itself
throws (escaping the catch) when the table has no `"eng"` entry. -/
def translate (lang : LocaleTable) (request : JsObj) (message : String) :
    Except JsError (Option String) :=
  match handleLanguage request with
  | .error e => .error e
  | .ok language =>
    match lookupLocale lang language with
    | some m => .ok (lookupKey m message)
    | none =>
      match lookupLocale lang "eng" with
      | some m => .ok (lookupKey m message)
      | none => .error .typeError

/-- A finalized response emission: `res.status(c).json(b)` or
`res.status(c).send(b)`. -/
inductive Sent where
  | json (status : Nat) (body : JsValue)
  | send (status : Nat) (body : JsValue)

/-- The translate result placed into a body: `undefined` when absent. -/
def jsOfOpt : Option String → JsValue
  | some s => .str s
  | none => .undefined

/-- Embeds `custom` (src/index.js:457-463). -/
def custom (response : JsObj) (statusCode : Nat)
    (success : JsValue) (data : JsValue) (message : JsValue) : Sent :=
  .json statusCode (.obj [("success", success), ("data", data), ("message", message)])

/-- Embeds `_custom` (src/index.js:473-477); `status || 200` takes 200
when the status is the falsy 0 (modelling only numeric status here). -/
def custom_ (response : JsObj) (status : Nat) (data : JsValue) : Sent :=
  .json (if status = 0 then 200 else status) (.obj [("data", data)])

/-- Embeds `badResquest` (src/index.js:485-487); `translate` is
evaluated before `custom`, so its exception propagates. -/
def badResquest (lang : LocaleTable) (req res : JsObj) : Except JsError Sent :=
  (translate lang req "missing_parameters").map fun m =>
    custom res 400 (.bool false) .null (jsOfOpt m)

/-- Embeds `badResquestWithMsg` (src/index.js:495-497). -/
def badResquestWithMsg (res : JsObj) (message : JsValue) : Sent :=
  custom res 400 (.bool false) .null message

/-- Embeds `conflict` (src/index.js:505-507). -/
def conflict (lang : LocaleTable) (req res : JsObj) : Except JsError Sent :=
  (translate lang req "already_exist").map fun m =>
    custom res 409 (.bool false) .null (jsOfOpt m)

/-- Embeds `notFound` (src/index.js:515-517). -/
def notFound (lang : LocaleTable) (req res : JsObj) : Except JsError Sent :=
  (translate lang req "not_found").map fun m =>
    custom res 404 (.bool true) (.obj []) (jsOfOpt m)

/-- Embeds `success` (src/index.js:525-527). -/
def success (lang : LocaleTable) (req res : JsObj) : Except JsError Sent :=
  (translate lang req "successfull_operation").map fun m =>
    custom res 201 (.bool false) .null (jsOfOpt m)

/-- Embeds `_success` (src/index.js:535-537). -/
def success_ (res : JsObj) (data : JsValue) : Sent :=
  custom_ res 201 data

/-- Embeds `forbidden` (src/index.js:576-578). -/
def forbidden (lang : LocaleTable) (req res : JsObj) : Except JsError Sent :=
  (translate lang req "forbidden").map fun m =>
    custom res 403 (.bool false) .null (jsOfOpt m)

/-- Embeds `unauthorized` (src/index.js:586-588). -/
def unauthorized (lang : LocaleTable) (req res : JsObj) : Except JsError Sent :=
  (translate lang req "unauthorized").map fun m =>
    custom res 401 (.bool false) .null (jsOfOpt m)

/-- Embeds `unprocessable_content` (src/index.js:596-598).  Note the
source passes `res`, not `req`, to `translate`:
`res.status(422).send(translate(res, "422_error"))`. -/
def unprocessable_content (lang : LocaleTable) (req res : JsObj) :
    Except JsError Sent :=
  (translate lang res "422_error").map fun m => Sent.send 422 (jsOfOpt m)

/-- Embeds `success_with_data` (src/index.js:606-608). -/
def success_with_data (req res : JsObj) (data : JsValue) : Sent :=
  .json 200 data

/-- Embeds `success_with_datas` (src/index.js:616-620). -/
def success_with_datas (req res : JsObj) (data : JsValue) : Sent :=
  .json 200 (.obj [("data", data)])

/-! The notifier (`custom_notify`, `error_notification`, `error`). -/

/-- The environment variables the notifier reads (`none` = unset). -/
structure Env where
  ALLOW_NOTIF : Option String
  ERROR_HOOK : Option String
  NODE_ENV : Option String

/-- Settlement of one `axios.post`: fulfilled, rejected (with the string
the rejection reason interpolates to), or never settling. -/
inductive Outcome where
  | ok
  | fail (detail : String)
  | hang

/-- One transport call: `axios.post(hook, content)`. -/
structure Post where
  hook : Option String
  content : JsValue

/-- The string interpolation `String(v)` used by template literals. -/
def jsDisplay : JsValue → String
  | .null => "null"
  | .undefined => "undefined"
  | .bool true => "true"
  | .bool false => "false"
  | .num n => toString n
  | .str s => s
  | .obj _ => "[object Object]"
  | .arr l => String.intercalate ","
      (l.attach.map fun v => match v with
        | ⟨.null, _⟩ => ""
        | ⟨.undefined, _⟩ => ""
        | ⟨w, _⟩ => jsDisplay w)

/-- The payload built in the `.catch` handler of `custom_notify`
(src/index.js:381-401): a timestamp block and the failure detail. -/
def errorPayload (dateTime : String) (detail : String) : JsValue :=
  .obj [("blocks", .arr
    [ .obj [("type", .str "section"),
            ("text", .obj [("type", .str "mrkdwn"),
                           ("text", .str ("`" ++ dateTime ++ "`"))])],
      .obj [("type", .str "context"),
            ("elements", .arr
              [.obj [("type", .str "mrkdwn"),
                     ("text", .str ("*error while sending notification* \n" ++ detail))]])]])]

/-- The sequence of transport POSTs triggered by one `custom_notify`
call (src/index.js:373-404), unfolded up to `fuel` cascade steps.  Each
step re-enters `custom_notify` via `error_notification`
(src/index.js:410-412), so the `ALLOW_NOTIF` guard is re-checked.  The
k-th POST settles as `g k`; a rejection runs the `.catch` handler,
which reads the clock (`clock k`) and re-routes `errorPayload` to
`env.ERROR_HOOK`; fulfilment (or a never-settling POST) ends the
cascade.  `fuel = 0` truncates the (source-unbounded) cascade. -/
def custom_notifyGo (env : Env) (g : Nat → Outcome) (clock : Nat → String) :
    Nat → Nat → Option String → JsValue → List Post
  | 0, _, _, _ => []
  | fuel + 1, k, hook, content =>
    if env.ALLOW_NOTIF = some "true" then
      ⟨hook, content⟩ ::
        (match g k with
         | .ok => []
         | .hang => []
         | .fail e =>
           custom_notifyGo env g clock fuel (k + 1) env.ERROR_HOOK
             (errorPayload (clock k) e))
    else []

/-- Embeds `custom_notify` (src/index.js:373-404): the POSTs it
(eventually) performs, and what `await custom_notify(...)` observes.
The `axios.post(...).then().catch()` chain is detached (not returned),
so the promise `custom_notify` returns resolves regardless of the
transport's outcome: the second component is always `ok`. -/
def custom_notify (env : Env) (g : Nat → Outcome) (clock : Nat → String)
    (fuel : Nat) (hook : Option String) (content : JsValue) :
    List Post × Except JsError Unit :=
  (custom_notifyGo env g clock fuel 0 hook content, .ok ())

/-- Embeds `error_notification` (src/index.js:410-412). -/
def error_notification (env : Env) (g : Nat → Outcome) (clock : Nat → String)
    (fuel : Nat) (content : JsValue) : List Post × Except JsError Unit :=
  custom_notify env g clock fuel env.ERROR_HOOK content

/-- The payload `error` sends (src/index.js:547-566): a timestamp block
and `*ERREUR 500 - ENV <NODE_ENV>* \n<error>`. -/
def error500Payload (dateTime : String) (nodeEnv : Option String)
    (err : JsValue) : JsValue :=
  .obj [("blocks", .arr
    [ .obj [("type", .str "section"),
            ("text", .obj [("type", .str "mrkdwn"),
                           ("text", .str ("`" ++ dateTime ++ "`"))])],
      .obj [("type", .str "context"),
            ("elements", .arr
              [.obj [("type", .str "mrkdwn"),
                     ("text", .str ("*ERREUR 500 - ENV "
                       ++ (match nodeEnv with | some s => s | none => "undefined")
                       ++ "* \n" ++ jsDisplay err))]])]])]

/-- Embeds `error` (src/index.js:545-568): reads the clock (`now`),
awaits `error_notification`, then emits the 500 envelope
`custom(res, 500, false, null, error)`.  Were the awaited promise to
reject, the rejection would propagate (no try/catch here); the emission
happens whenever the await completes normally. -/
def error (env : Env) (g : Nat → Outcome) (clock : Nat → String)
    (fuel : Nat) (now : String) (res : JsObj) (err : JsValue) :
    List Post × Except JsError Sent :=
  let n := error_notification env g clock fuel (error500Payload now env.NODE_ENV err)
  match n.2 with
  | .error e => (n.1, .error e)
  | .ok _ => (n.1, .ok (custom res 500 (.bool false) .null err))

/-! The `slugify` string transform (src/index.js:344-351), over JS
strings as lists of code points. -/

/-- JS regex `\s` and the code points `String.prototype.trim` strips. -/
def jsIsSpace (n : Nat) : Bool :=
  n == 9 || n == 10 || n == 11 || n == 12 || n == 13 || n == 32 ||
  n == 160 || n == 5760 || (8192 ≤ n && n ≤ 8202) || n == 8232 ||
  n == 8233 || n == 8239 || n == 8287 || n == 12288 || n == 65279

/-- JS regex `\w`: ASCII letters, digits, underscore. -/
def jsIsWord (n : Nat) : Bool :=
  (48 ≤ n && n ≤ 57) || (65 ≤ n && n ≤ 90) || (97 ≤ n && n ≤ 122) || n == 95

/-- The `toLowerCase()` step, modelled on the ASCII range. -/
def jsToLower (n : Nat) : Nat :=
  if 65 ≤ n ∧ n ≤ 90 then n + 32 else n

/-- Drops a maximal trailing run of code points satisfying `p`. -/
def dropTrailWhile (p : Nat → Bool) : List Nat → List Nat
  | [] => []
  | c :: rest =>
    match dropTrailWhile p rest with
    | [] => if p c then [] else [c]
    | r => c :: r

/-- The `trim()` step: strips leading and trailing whitespace. -/
def jsTrim (s : List Nat) : List Nat :=
  dropTrailWhile jsIsSpace (s.dropWhile jsIsSpace)

/-- The `.replace(/[^\w\s-]/g, "")` step: keeps word characters,
whitespace and hyphens. -/
def replaceDisallowed (s : List Nat) : List Nat :=
  s.filter fun n => jsIsWord n || jsIsSpace n || n == 45

/-- A code point matched by `[\s_-]`. -/
def isSep (n : Nat) : Bool :=
  jsIsSpace n || n == 95 || n == 45

/-- The `.replace(/[\s_-]+/g, "-")` step: each maximal run of
whitespace/underscore/hyphen becomes a single hyphen (code 45).  The
boolean records whether the scan is inside such a run. -/
def replaceSepRunsGo : Bool → List Nat → List Nat
  | _, [] => []
  | inRun, c :: rest =>
    if isSep c then
      if inRun then replaceSepRunsGo true rest
      else 45 :: replaceSepRunsGo true rest
    else c :: replaceSepRunsGo false rest

/-- The `.replace(/[\s_-]+/g, "-")` step, started outside a run. -/
def replaceSepRuns (s : List Nat) : List Nat :=
  replaceSepRunsGo false s

/-- The `.replace(/^-+|-+$/g, "")` step: strips one leading and one
trailing maximal hyphen run. -/
def replaceEdgeHyphens (s : List Nat) : List Nat :=
  dropTrailWhile (fun n => n == 45) (s.dropWhile fun n => n == 45)

/-- Embeds `slugify` (src/index.js:344-351): lowercase, trim, delete
disallowed characters, collapse separator runs to hyphens, strip edge
hyphens. -/
def slugify (s : List Nat) : List Nat :=
  replaceEdgeHyphens (replaceSepRuns (replaceDisallowed (jsTrim (s.map jsToLower))))

/-- Code points of a Lean string, for concrete `slugify` inputs. -/
def codes (s : String) : List Nat :=
  s.data.map Char.toNat

/-! Named subexpressions and concrete instances used by the theorems. -/

/-- The locale `handleLanguage` selects once the `query` object is in
hand (the ternary's value). -/
def selectedLocale (q : QueryObj) : String :=
  match q.lang with
  | some s => if s = "" then "eng" else s
  | none => "eng"

/-- A sample locale table satisfying the spec's invariant (an `"eng"`
entry containing every key used; other locales partial). -/
def sampleTable : LocaleTable :=
  [("eng", [("not_found", "not found"), ("successfull_operation", "done"),
            ("missing_parameters", "missing"), ("422_error", "unprocessable")]),
   ("fra", [("not_found", "introuvable")])]

/-- A locale table where locale `"fra"` exists but lacks the key
`"greet"`, which the default locale has. -/
def cexTable : LocaleTable :=
  [("eng", [("greet", "hello")]), ("fra", [])]

/-- A request selecting locale `"fra"`. -/
def reqFra : JsObj := ⟨some ⟨some "fra"⟩⟩

/-- A request explicitly selecting the default locale `"eng"`. -/
def reqEng : JsObj := ⟨some ⟨some "eng"⟩⟩

/-- An ordinary response object: no `query` field. -/
def plainRes : JsObj := ⟨none⟩

/-- An environment with notifications enabled. -/
def sampleEnv : Env :=
  ⟨some "true", some "https://hooks.example/err", some "production"⟩

/-- A code point that can appear in a slug: lowercase ASCII letter,
digit, or hyphen. -/
def outChar (n : Nat) : Prop :=
  (97 ≤ n ∧ n ≤ 122) ∨ (48 ≤ n ∧ n ≤ 57) ∨ n = 45

/-- No two adjacent hyphens (code 45) in the list. -/
def noDH : List Nat → Prop
  | [] => True
  | [_] => True
  | a :: b :: t => ¬(a = 45 ∧ b = 45) ∧ noDH (b :: t)

end Api

namespace Api

/-! Helper lemmas about `translate`. -/

/-- On a request carrying a `query` object, `handleLanguage` returns the
selected locale. -/
theorem handleLanguage_eq_selected (r : JsObj) (q : QueryObj)
    (hq : r.query = some q) :
    handleLanguage r = Except.ok (selectedLocale q) := by
  simp [handleLanguage, hq, selectedLocale]

/-- How `translate` evaluates on a request carrying a `query` object. -/
theorem translate_eq (t : LocaleTable) (r : JsObj) (q : QueryObj) (k : String)
    (hq : r.query = some q) :
    translate t r k =
      match lookupLocale t (selectedLocale q) with
      | some m => Except.ok (lookupKey m k)
      | none =>
        match lookupLocale t "eng" with
        | some m => Except.ok (lookupKey m k)
        | none => Except.error JsError.typeError := by
  rw [translate, handleLanguage_eq_selected r q hq]

/-- When the table has a default-locale entry, `translate` succeeds on
any request carrying a `query` object. -/
theorem translate_ok (t : LocaleTable) (r : JsObj) (q : QueryObj) (k : String)
    (hq : r.query = some q) (heng : (lookupLocale t "eng").isSome) :
    ∃ m, translate t r k = Except.ok m := by
  obtain ⟨em, hem⟩ := Option.isSome_iff_exists.mp heng
  rw [translate_eq t r q k hq]
  cases hL : lookupLocale t (selectedLocale q) with
  | some m => exact ⟨lookupKey m k, rfl⟩
  | none => exact ⟨lookupKey em k, by rw [hem]⟩

/-- C3: for every request (an object carrying a `query`) and response
sink, over any locale table with a default-locale entry, `notFound`
emits status 404 with success flag `true`, data `{}` and message
`translate(request, "not_found")`, and `success` emits status 201 with
success flag `false`, data `null` and message
`translate(request, "successfull_operation")`. -/
theorem notFound_success_pairings (t : LocaleTable) (req res : JsObj)
    (q : QueryObj) (hq : req.query = some q)
    (heng : (lookupLocale t "eng").isSome) :
    (∃ m, translate t req "not_found" = Except.ok m ∧
      notFound t req res = Except.ok (Sent.json 404 (JsValue.obj
        [("success", JsValue.bool true), ("data", JsValue.obj []),
         ("message", jsOfOpt m)]))) ∧
    (∃ m, translate t req "successfull_operation" = Except.ok m ∧
      success t req res = Except.ok (Sent.json 201 (JsValue.obj
        [("success", JsValue.bool false), ("data", JsValue.null),
         ("message", jsOfOpt m)]))) := by
  obtain ⟨m₁, h₁⟩ := translate_ok t req q "not_found" hq heng
  obtain ⟨m₂, h₂⟩ := translate_ok t req q "successfull_operation" hq heng
  exact ⟨⟨m₁, h₁, by simp [notFound, custom, h₁, Except.map]⟩,
         ⟨m₂, h₂, by simp [success, custom, h₂, Except.map]⟩⟩

/-- Witness for C3 at a concrete table, request and response. -/
theorem notFound_success_pairings_witness :
    (∃ m, translate sampleTable reqFra "not_found" = Except.ok m ∧
      notFound sampleTable reqFra plainRes = Except.ok (Sent.json 404 (JsValue.obj
        [("success", JsValue.bool true), ("data", JsValue.obj []),
         ("message", jsOfOpt m)]))) ∧
    (∃ m, translate sampleTable reqFra "successfull_operation" = Except.ok m ∧
      success sampleTable reqFra plainRes = Except.ok (Sent.json 201 (JsValue.obj
        [("success", JsValue.bool false), ("data", JsValue.null),
         ("message", jsOfOpt m)]))) :=
  notFound_success_pairings sampleTable reqFra plainRes ⟨some "fra"⟩ rfl (by decide)

/-- C4: `error` always emits the 500 envelope, whatever the transport
outcome stream does (every POST may reject or never settle) and however
deep the notification cascade runs: the emission is not contingent on
the notification, because the promise `custom_notify` returns resolves
immediately (its transport chain is detached). -/
theorem error_always_emits_500 (env : Env) (g : Nat → Outcome)
    (clock : Nat → String) (fuel : Nat) (now : String) (res : JsObj)
    (err : JsValue) :
    (error env g clock fuel now res err).2 =
      Except.ok (custom res 500 (JsValue.bool false) JsValue.null err) := rfl

/-- C5 (code evaluated at the failing input): `unprocessable_content`
passes the response object to `translate`, so on an ordinary response
object (no `query` field) it raises a `TypeError` instead of emitting a
422 — for every locale table and every request; `handleLanguage`
likewise raises on an object without a `query` field. -/
theorem unprocessable_content_raises_on_plain_response (t : LocaleTable)
    (req : JsObj) :
    unprocessable_content t req plainRes = Except.error JsError.typeError ∧
    handleLanguage plainRes = Except.error JsError.typeError :=
  ⟨rfl, rfl⟩

/-- C6: for every request (an object carrying a `query`) and response
sink, over any locale table with a default-locale entry, `badResquest`
emits status 400 with success flag `false`, data `null` and message
`translate(request, "missing_parameters")`. -/
theorem badResquest_emits_400 (t : LocaleTable) (req res : JsObj)
    (q : QueryObj) (hq : req.query = some q)
    (heng : (lookupLocale t "eng").isSome) :
    ∃ m, translate t req "missing_parameters" = Except.ok m ∧
      badResquest t req res = Except.ok (Sent.json 400 (JsValue.obj
        [("success", JsValue.bool false), ("data", JsValue.null),
         ("message", jsOfOpt m)])) := by
  obtain ⟨m, h⟩ := translate_ok t req q "missing_parameters" hq heng
  exact ⟨m, h, by simp [badResquest, custom, h, Except.map]⟩

/-- Witness for C6 at a concrete table, request and response. -/
theorem badResquest_emits_400_witness :
    ∃ m, translate sampleTable reqFra "missing_parameters" = Except.ok m ∧
      badResquest sampleTable reqFra plainRes = Except.ok (Sent.json 400 (JsValue.obj
        [("success", JsValue.bool false), ("data", JsValue.null),
         ("message", jsOfOpt m)])) :=
  badResquest_emits_400 sampleTable reqFra plainRes ⟨some "fra"⟩ rfl (by decide)

/-- C8: when `ALLOW_NOTIF` is not the string `"true"`, `custom_notify`
performs zero transport POSTs, for every hook, payload, transport
behaviour and cascade depth. -/
theorem custom_notify_disabled_no_posts (env : Env) (g : Nat → Outcome)
    (clock : Nat → String) (fuel : Nat) (hook : Option String)
    (content : JsValue) (h : env.ALLOW_NOTIF ≠ some "true") :
    (custom_notify env g clock fuel hook content).1 = [] := by
  cases fuel with
  | zero => rfl
  | succ n => simp [custom_notify, custom_notifyGo, h]

/-- Witness for C8: an unset `ALLOW_NOTIF` yields no POSTs. -/
theorem custom_notify_disabled_no_posts_witness :
    (custom_notify ⟨none, some "https://hooks.example/err", none⟩
      (fun _ => Outcome.ok) (fun _ => "t") 5 (some "https://hooks.example/log")
      JsValue.null).1 = [] :=
  custom_notify_disabled_no_posts _ _ _ _ _ _ (by decide)

/-- C10: the body of the 422 response is independent of the request (in
particular of its `lang` query parameter): `unprocessable_content`
resolves the locale from the response sink's `query` field, and on a
response sink without one (as ordinary response objects) the lookup
errors instead of producing a body. -/
theorem unprocessable_content_locale_from_response (t : LocaleTable)
    (req req' res : JsObj) :
    unprocessable_content t req res = unprocessable_content t req' res ∧
    (res.query = none →
      unprocessable_content t req res = Except.error JsError.typeError) := by
  refine ⟨rfl, fun h => ?_⟩
  simp [unprocessable_content, translate, handleLanguage, h, Except.map]

/-- Witness for C10 at a concrete table, requests and response. -/
theorem unprocessable_content_locale_from_response_witness :
    unprocessable_content sampleTable reqFra plainRes =
      unprocessable_content sampleTable reqEng plainRes ∧
    (plainRes.query = none →
      unprocessable_content sampleTable reqFra plainRes =
        Except.error JsError.typeError) :=
  unprocessable_content_locale_from_response sampleTable reqFra reqEng plainRes

/-- C1 fails as stated: in `cexTable` the locale `"fra"` exists but
lacks the key `"greet"`; `translate` then returns `undefined` (`none`),
not the default-locale entry `"hello"`. -/
theorem translate_missing_key_no_fallback_cex :
    lookupLocale cexTable "fra" = some [] ∧
    lookupLocale cexTable "eng" = some [("greet", "hello")] ∧
    lookupKey [("greet", "hello")] "greet" = some "hello" ∧
    translate cexTable reqFra "greet" = Except.ok none ∧
    Except.ok none ≠ (Except.ok (some "hello") : Except JsError (Option String)) := by
  refine ⟨rfl, rfl, rfl, rfl, fun h => ?_⟩
  injection h with h'
  exact Option.noConfusion h'

/-- C1 amended: on a request carrying a `query` object, an unknown
locale falls back to the default-locale entry; a known locale yields
its own entry for the key, `undefined` included, with no fallback; and
`translate` raises no exception whenever the table has a
default-locale entry. -/
theorem translate_fallback_amended (t : LocaleTable) (r : JsObj)
    (q : QueryObj) (k : String) (hq : r.query = some q) :
    (lookupLocale t (selectedLocale q) = none →
      ∀ em, lookupLocale t "eng" = some em →
        translate t r k = Except.ok (lookupKey em k)) ∧
    (∀ m, lookupLocale t (selectedLocale q) = some m →
      translate t r k = Except.ok (lookupKey m k)) ∧
    ((lookupLocale t "eng").isSome → ∃ v, translate t r k = Except.ok v) := by
  refine ⟨fun hnone em hem => ?_, fun m hm => ?_, fun heng => ?_⟩
  · rw [translate_eq t r q k hq, hnone, hem]
  · rw [translate_eq t r q k hq, hm]
  · exact translate_ok t r q k hq heng

/-- Witness for the amended C1 at a concrete table and request. -/
theorem translate_fallback_amended_witness :
    (lookupLocale cexTable (selectedLocale ⟨some "fra"⟩) = none →
      ∀ em, lookupLocale cexTable "eng" = some em →
        translate cexTable reqFra "greet" = Except.ok (lookupKey em "greet")) ∧
    (∀ m, lookupLocale cexTable (selectedLocale ⟨some "fra"⟩) = some m →
      translate cexTable reqFra "greet" = Except.ok (lookupKey m "greet")) ∧
    ((lookupLocale cexTable "eng").isSome →
      ∃ v, translate cexTable reqFra "greet" = Except.ok v) :=
  translate_fallback_amended cexTable reqFra ⟨some "fra"⟩ "greet" rfl

/-- C7: `translate` on a request whose `lang` query parameter is
absent, empty, or names a locale missing from the table gives the same
result as on a request explicitly selecting `"eng"`. -/
theorem translate_default_locale_equiv (t : LocaleTable) (k : String)
    (q : QueryObj)
    (h : q.lang = none ∨ q.lang = some "" ∨
         ∃ s, q.lang = some s ∧ lookupLocale t s = none) :
    translate t ⟨some q⟩ k = translate t ⟨some ⟨some "eng"⟩⟩ k := by
  rw [translate_eq t ⟨some q⟩ q k rfl,
      translate_eq t ⟨some ⟨some "eng"⟩⟩ ⟨some "eng"⟩ k rfl]
  have heng : selectedLocale ⟨some "eng"⟩ = "eng" := rfl
  rw [heng]
  rcases h with hnone | hempty | ⟨s, hs, hmiss⟩
  · rw [show selectedLocale q = "eng" by simp [selectedLocale, hnone]]
  · rw [show selectedLocale q = "eng" by simp [selectedLocale, hempty]]
  · by_cases hse : s = ""
    · rw [show selectedLocale q = "eng" by simp [selectedLocale, hs, hse]]
    · rw [show selectedLocale q = s by simp [selectedLocale, hs, hse], hmiss]
      cases lookupLocale t "eng" <;> rfl

/-- Witness for C7 at a concrete table and unknown locale. -/
theorem translate_default_locale_equiv_witness :
    translate cexTable ⟨some ⟨some "spa"⟩⟩ "greet" =
      translate cexTable ⟨some ⟨some "eng"⟩⟩ "greet" :=
  translate_default_locale_equiv cexTable "greet" ⟨some "spa"⟩
    (Or.inr (Or.inr ⟨"spa", rfl, by decide⟩))

/-- C2 fails as stated: with notifications enabled and a transport that
always rejects, the cascade does not stop after the secondary
error-notification attempt — a third (and fourth) POST is made, so a
failure of the secondary attempt is not terminal. -/
theorem notify_secondary_failure_not_terminal_cex :
    ¬ ((custom_notify sampleEnv (fun _ => Outcome.fail "boom") (fun _ => "t")
        4 (some "https://hooks.example/log") JsValue.null).1.length ≤ 2) := by
  decide

/-- C2 amended: with notifications enabled and a failing primary POST,
the caller observes no raised error and exactly one secondary
error-notification attempt (with a timestamp and the failure detail)
follows the primary POST — the cascade ends there if the secondary
settles fulfilled — but a failure of the secondary attempt is not
terminal: it is caught and re-routed as a further error-notification
POST, and so on while failures continue. -/
theorem custom_notify_failure_cascade (env : Env) (g : Nat → Outcome)
    (clock : Nat → String) (n : Nat) (hook : Option String)
    (content : JsValue) (e : String)
    (henv : env.ALLOW_NOTIF = some "true") (h0 : g 0 = Outcome.fail e) :
    (custom_notify env g clock (n + 3) hook content).2 = Except.ok () ∧
    (custom_notify env g clock (n + 3) hook content).1.take 2 =
      [⟨hook, content⟩, ⟨env.ERROR_HOOK, errorPayload (clock 0) e⟩] ∧
    (g 1 = Outcome.ok →
      (custom_notify env g clock (n + 3) hook content).1 =
        [⟨hook, content⟩, ⟨env.ERROR_HOOK, errorPayload (clock 0) e⟩]) ∧
    (∀ e', g 1 = Outcome.fail e' →
      (custom_notify env g clock (n + 3) hook content).1.take 3 =
        [⟨hook, content⟩, ⟨env.ERROR_HOOK, errorPayload (clock 0) e⟩,
         ⟨env.ERROR_HOOK, errorPayload (clock 1) e'⟩]) := by
  refine ⟨rfl, ?_, fun h1 => ?_, fun e' h1 => ?_⟩
  · simp [custom_notify, custom_notifyGo, henv, h0]
  · simp [custom_notify, custom_notifyGo, henv, h0, h1]
  · simp [custom_notify, custom_notifyGo, henv, h0, h1]

/-- Witness for the amended C2 with an always-failing transport. -/
theorem custom_notify_failure_cascade_witness :
    (custom_notify sampleEnv (fun _ => Outcome.fail "boom") (fun _ => "t")
      (0 + 3) (some "https://hooks.example/log") JsValue.null).2 = Except.ok () ∧
    (custom_notify sampleEnv (fun _ => Outcome.fail "boom") (fun _ => "t")
      (0 + 3) (some "https://hooks.example/log") JsValue.null).1.take 2 =
      [⟨some "https://hooks.example/log", JsValue.null⟩,
       ⟨sampleEnv.ERROR_HOOK, errorPayload "t" "boom"⟩] ∧
    ((fun _ => Outcome.fail "boom" : Nat → Outcome) 1 = Outcome.ok →
      (custom_notify sampleEnv (fun _ => Outcome.fail "boom") (fun _ => "t")
        (0 + 3) (some "https://hooks.example/log") JsValue.null).1 =
        [⟨some "https://hooks.example/log", JsValue.null⟩,
         ⟨sampleEnv.ERROR_HOOK, errorPayload "t" "boom"⟩]) ∧
    (∀ e', (fun _ => Outcome.fail "boom" : Nat → Outcome) 1 = Outcome.fail e' →
      (custom_notify sampleEnv (fun _ => Outcome.fail "boom") (fun _ => "t")
        (0 + 3) (some "https://hooks.example/log") JsValue.null).1.take 3 =
        [⟨some "https://hooks.example/log", JsValue.null⟩,
         ⟨sampleEnv.ERROR_HOOK, errorPayload "t" "boom"⟩,
         ⟨sampleEnv.ERROR_HOOK, errorPayload "t" e'⟩]) :=
  custom_notify_failure_cascade sampleEnv (fun _ => Outcome.fail "boom")
    (fun _ => "t") 0 (some "https://hooks.example/log") JsValue.null "boom"
    rfl rfl

/-! Lemmas towards the idempotence of `slugify`. -/

/-- Lowercasing never produces an ASCII uppercase letter. -/
theorem jsToLower_not_upper (n : Nat) : ¬ (65 ≤ jsToLower n ∧ jsToLower n ≤ 90) := by
  unfold jsToLower
  split <;> omega

/-- Slug characters are not whitespace. -/
theorem jsIsSpace_eq_false_of_outChar {n : Nat} (h : outChar n) :
    jsIsSpace n = false := by
  unfold jsIsSpace
  simp only [Bool.or_eq_false_iff, beq_eq_false_iff_ne, ne_eq,
    Bool.and_eq_false_iff, decide_eq_false_iff_not, not_le, not_and]
  rcases h with ⟨h1, h2⟩ | ⟨h1, h2⟩ | h1 <;> omega

/-- Slug characters other than the hyphen are not separators. -/
theorem isSep_eq_false_of_outChar {n : Nat} (h : outChar n) (h45 : n ≠ 45) :
    isSep n = false := by
  unfold isSep
  rw [jsIsSpace_eq_false_of_outChar h]
  simp only [Bool.false_or, Bool.or_eq_false_iff, beq_eq_false_iff_ne, ne_eq]
  rcases h with ⟨h1, h2⟩ | ⟨h1, h2⟩ | h1 <;> omega

/-- Slug characters pass the `[^\w\s-]` deletion filter. -/
theorem allowed_of_outChar {n : Nat} (h : outChar n) :
    (jsIsWord n || jsIsSpace n || n == 45) = true := by
  unfold jsIsWord
  simp only [Bool.or_eq_true, Bool.and_eq_true, decide_eq_true_eq, beq_iff_eq]
  rcases h with ⟨h1, h2⟩ | ⟨h1, h2⟩ | h1 <;> omega

/-- A head is a member. -/
theorem mem_of_headQ {l : List Nat} {a : Nat} (h : l.head? = some a) : a ∈ l := by
  cases l with
  | nil => exact absurd h (by simp)
  | cons c t => exact (by injection h with h'; exact h' ▸ List.mem_cons_self c t)

/-- A last element is a member. -/
theorem mem_of_getLastQ {l : List Nat} {a : Nat} (h : l.getLast? = some a) :
    a ∈ l := by
  induction l with
  | nil => exact absurd h (by simp)
  | cons c t ih =>
    cases t with
    | nil =>
      injection h with h'
      exact h' ▸ List.mem_cons_self c []
    | cons d t' =>
      rw [List.getLast?_cons_cons] at h
      exact List.mem_cons_of_mem c (ih h)

/-- Members of `dropWhile` come from the list. -/
theorem mem_of_mem_dropWhile {p : Nat → Bool} {l : List Nat} {a : Nat}
    (h : a ∈ l.dropWhile p) : a ∈ l := by
  induction l with
  | nil => simpa using h
  | cons c t ih =>
    rw [List.dropWhile_cons] at h
    split at h
    · exact List.mem_cons_of_mem c (ih h)
    · exact h

/-- Members of `dropTrailWhile` come from the list. -/
theorem mem_of_mem_dropTrailWhile {p : Nat → Bool} {l : List Nat} {a : Nat}
    (h : a ∈ dropTrailWhile p l) : a ∈ l := by
  induction l with
  | nil => simpa [dropTrailWhile] using h
  | cons c t ih =>
    rw [dropTrailWhile] at h
    rcases hr : dropTrailWhile p t with _ | ⟨r, rs⟩ <;> rw [hr] at h
    · by_cases hc : p c
      · rw [if_pos hc] at h
        simp at h
      · rw [if_neg hc] at h
        rcases List.mem_singleton.mp h with rfl
        exact List.mem_cons_self a t
    · rcases List.mem_cons.mp h with rfl | hm
      · exact List.mem_cons_self a t
      · exact List.mem_cons_of_mem c (ih (hr ▸ hm))

/-- Members of the separator-collapsing pass are hyphens or
non-separator members of the input. -/
theorem mem_of_mem_replaceSepRunsGo {l : List Nat} {b : Bool} {a : Nat}
    (h : a ∈ replaceSepRunsGo b l) :
    a = 45 ∨ (a ∈ l ∧ isSep a = false) := by
  induction l generalizing b with
  | nil => simpa [replaceSepRunsGo] using h
  | cons c t ih =>
    rw [replaceSepRunsGo] at h
    by_cases hsep : isSep c
    · rw [if_pos hsep] at h
      cases b with
      | true =>
        rcases ih h with h45 | ⟨hm, hs⟩
        · exact Or.inl h45
        · exact Or.inr ⟨List.mem_cons_of_mem c hm, hs⟩
      | false =>
        rcases List.mem_cons.mp h with rfl | hm
        · exact Or.inl rfl
        · rcases ih hm with h45 | ⟨hm', hs⟩
          · exact Or.inl h45
          · exact Or.inr ⟨List.mem_cons_of_mem c hm', hs⟩
    · rw [if_neg hsep] at h
      rcases List.mem_cons.mp h with rfl | hm
      · exact Or.inr ⟨List.mem_cons_self a t, Bool.not_eq_true _ ▸ hsep⟩
      · rcases ih hm with h45 | ⟨hm', hs⟩
        · exact Or.inl h45
        · exact Or.inr ⟨List.mem_cons_of_mem c hm', hs⟩

/-- Every character of a slug is a lowercase letter, digit or hyphen. -/
theorem outChar_of_mem_slugify {s : List Nat} {a : Nat}
    (h : a ∈ slugify s) : outChar a := by
  unfold slugify replaceEdgeHyphens at h
  have hv := mem_of_mem_dropWhile (mem_of_mem_dropTrailWhile h)
  rcases mem_of_mem_replaceSepRunsGo hv with h45 | ⟨hm, hs⟩
  · exact Or.inr (Or.inr h45)
  · have hmem := List.mem_filter.mp hm
    have hallow := hmem.2
    have hmap := mem_of_mem_dropWhile (mem_of_mem_dropTrailWhile hmem.1)
    obtain ⟨b, _, hb⟩ := List.mem_map.mp hmap
    have hupper := jsToLower_not_upper b
    rw [hb] at hupper
    unfold isSep at hs
    simp only [Bool.or_eq_false_iff, beq_eq_false_iff_ne, ne_eq] at hs
    simp only [jsIsWord, hs.1.1, Bool.or_false, Bool.or_eq_true,
      Bool.and_eq_true, decide_eq_true_eq, beq_iff_eq] at hallow
    have h95 : a ≠ 95 := hs.1.2
    unfold outChar
    omega

/-- Adding a head preserves hyphen-run freedom when it does not create
a double hyphen. -/
theorem noDH_cons {a : Nat} {l : List Nat}
    (h45 : a = 45 → l.head? ≠ some 45) (hl : noDH l) :
    noDH (a :: l) := by
  cases l with
  | nil => exact trivial
  | cons b t =>
    refine ⟨fun hab => ?_, hl⟩
    exact h45 hab.1 (by rw [List.head?_cons, hab.2])

/-- Dropping the head preserves hyphen-run freedom. -/
theorem noDH_tail {a : Nat} {l : List Nat} (h : noDH (a :: l)) :
    noDH l := by
  cases l with
  | nil => exact trivial
  | cons b t => exact h.2

/-- The collapsing pass in run state never starts with a hyphen. -/
theorem replaceSepRunsGo_true_headQ {l : List Nat} {a : Nat}
    (h : (replaceSepRunsGo true l).head? = some a) : a ≠ 45 := by
  induction l with
  | nil => simp [replaceSepRunsGo] at h
  | cons c t ih =>
    rw [replaceSepRunsGo] at h
    by_cases hsep : isSep c
    · rw [if_pos hsep] at h
      exact ih h
    · rw [if_neg hsep, List.head?_cons] at h
      injection h with h'
      subst h'
      intro hc
      exact hsep (hc ▸ (by decide : isSep 45 = true))

/-- The collapsing pass never produces two adjacent hyphens. -/
theorem noDH_replaceSepRunsGo (l : List Nat) :
    ∀ b, noDH (replaceSepRunsGo b l) := by
  induction l with
  | nil => intro b; exact trivial
  | cons c t ih =>
    intro b
    rw [replaceSepRunsGo]
    by_cases hsep : isSep c
    · rw [if_pos hsep]
      cases b with
      | true => exact ih true
      | false =>
        exact noDH_cons (fun _ h => replaceSepRunsGo_true_headQ h rfl) (ih true)
    · rw [if_neg hsep]
      refine noDH_cons (fun hc _ => hsep (hc ▸ (by decide : isSep 45 = true))) ?_
      exact ih false

/-- Hyphen-run freedom restricts to a left factor. -/
theorem noDH_append_left : ∀ (l t : List Nat), noDH (l ++ t) → noDH l
  | [], _, _ => trivial
  | a :: l, t, h => by
    refine noDH_cons ?_ (noDH_append_left l t (noDH_tail h))
    intro ha hhead
    cases l with
    | nil => simp at hhead
    | cons b l' =>
      rw [List.head?_cons] at hhead
      injection hhead with hb
      rw [List.cons_append, List.cons_append] at h
      exact h.1 ⟨ha, hb⟩

/-- `dropTrailWhile` yields a left factor of the list. -/
theorem dropTrailWhile_append (p : Nat → Bool) :
    ∀ l : List Nat, ∃ t, l = dropTrailWhile p l ++ t := by
  intro l
  induction l with
  | nil => exact ⟨[], rfl⟩
  | cons c rest ih =>
    obtain ⟨t', ht'⟩ := ih
    rw [dropTrailWhile]
    rcases hr : dropTrailWhile p rest with _ | ⟨r, rs⟩
    · by_cases hc : p c
      · rw [if_pos hc]
        exact ⟨c :: rest, rfl⟩
      · rw [if_neg hc]
        rw [hr] at ht'
        exact ⟨t', by rw [List.singleton_append, ht', List.nil_append]⟩
    · rw [hr] at ht'
      exact ⟨t', by rw [List.cons_append, ← ht']⟩

/-- `dropWhile` preserves hyphen-run freedom. -/
theorem noDH_dropWhile {p : Nat → Bool} {l : List Nat} (h : noDH l) :
    noDH (l.dropWhile p) := by
  induction l with
  | nil => exact h
  | cons c t ih =>
    rw [List.dropWhile_cons]
    split
    · exact ih (noDH_tail h)
    · exact h

/-- `dropTrailWhile` preserves hyphen-run freedom. -/
theorem noDH_dropTrailWhile {p : Nat → Bool} {l : List Nat} (h : noDH l) :
    noDH (dropTrailWhile p l) := by
  obtain ⟨t, ht⟩ := dropTrailWhile_append p l
  exact noDH_append_left _ t (ht ▸ h)

/-- What survives `dropWhile` starts with a failing character. -/
theorem headQ_dropWhile {p : Nat → Bool} {l : List Nat} {a : Nat}
    (h : (l.dropWhile p).head? = some a) : p a = false := by
  induction l with
  | nil => simp at h
  | cons c t ih =>
    rw [List.dropWhile_cons] at h
    by_cases hc : p c
    · rw [if_pos hc] at h
      exact ih h
    · rw [if_neg hc, List.head?_cons] at h
      injection h with h'
      subst h'
      simpa using hc

/-- What survives `dropTrailWhile` ends with a failing character. -/
theorem getLastQ_dropTrailWhile {p : Nat → Bool} {l : List Nat} {a : Nat}
    (h : (dropTrailWhile p l).getLast? = some a) : p a = false := by
  induction l with
  | nil => simp [dropTrailWhile] at h
  | cons c t ih =>
    rw [dropTrailWhile] at h
    rcases hr : dropTrailWhile p t with _ | ⟨r, rs⟩ <;> rw [hr] at h
    · by_cases hc : p c
      · rw [if_pos hc] at h
        simp at h
      · rw [if_neg hc, List.getLast?_singleton] at h
        injection h with h'
        subst h'
        simpa using hc
    · rw [List.getLast?_cons_cons] at h
      exact ih (hr ▸ h)

/-- A left factor's head is the list's head. -/
theorem headQ_of_append {l u t : List Nat} {a : Nat} (hl : l = u ++ t)
    (h : u.head? = some a) : l.head? = some a := by
  cases u with
  | nil => simp at h
  | cons c u' => rw [hl, List.cons_append, List.head?_cons, ← h, List.head?_cons]

/-- Mapping a function that fixes every member is the identity. -/
theorem map_id_of {f : Nat → Nat} {l : List Nat}
    (h : ∀ a ∈ l, f a = a) : l.map f = l := by
  induction l with
  | nil => rfl
  | cons c t ih =>
    rw [List.map_cons, h c (List.mem_cons_self c t),
      ih fun a ha => h a (List.mem_cons_of_mem c ha)]

/-- `dropWhile` is the identity when the head fails the predicate. -/
theorem dropWhile_id_of {p : Nat → Bool} {l : List Nat}
    (h : ∀ a, l.head? = some a → p a = false) : l.dropWhile p = l := by
  cases l with
  | nil => rfl
  | cons c t => rw [List.dropWhile_cons, h c rfl]; simp

/-- `dropTrailWhile` is the identity when the last element fails the
predicate. -/
theorem dropTrailWhile_id_of {p : Nat → Bool} {l : List Nat}
    (h : ∀ a, l.getLast? = some a → p a = false) : dropTrailWhile p l = l := by
  induction l with
  | nil => rfl
  | cons c t ih =>
    rw [dropTrailWhile]
    cases t with
    | nil =>
      have hc := h c rfl
      simp [dropTrailWhile, hc]
    | cons d t' =>
      have ht : dropTrailWhile p (d :: t') = d :: t' :=
        ih fun a ha => h a (by rw [List.getLast?_cons_cons]; exact ha)
      rw [ht]

/-- `filter` is the identity when every member passes. -/
theorem filter_id_of {p : Nat → Bool} {l : List Nat}
    (h : ∀ a ∈ l, p a = true) : l.filter p = l := by
  induction l with
  | nil => rfl
  | cons c t ih =>
    rw [List.filter_cons, if_pos (h c (List.mem_cons_self c t)),
      ih fun a ha => h a (List.mem_cons_of_mem c ha)]

/-- On a hyphen-run-free list of slug characters the collapsing pass is
the identity (in run state, provided the head is not a hyphen). -/
theorem replaceSepRunsGo_id : ∀ l : List Nat, (∀ a ∈ l, outChar a) →
    noDH l →
    replaceSepRunsGo false l = l ∧
      ((∀ a, l.head? = some a → a ≠ 45) → replaceSepRunsGo true l = l) := by
  intro l
  induction l with
  | nil => exact fun _ _ => ⟨rfl, fun _ => rfl⟩
  | cons c t ih =>
    intro hmem hnd
    obtain ⟨ihf, iht⟩ :=
      ih (fun a ha => hmem a (List.mem_cons_of_mem c ha)) (noDH_tail hnd)
    by_cases hc : c = 45
    · subst hc
      have hhead : ∀ a, t.head? = some a → a ≠ 45 := by
        intro a ha ha45
        subst ha45
        cases t with
        | nil => simp at ha
        | cons b t' =>
          rw [List.head?_cons] at ha
          injection ha with hb
          exact hnd.1 ⟨rfl, hb⟩
      constructor
      · rw [replaceSepRunsGo, if_pos (by decide : isSep 45 = true)]
        show 45 :: replaceSepRunsGo true t = 45 :: t
        rw [iht hhead]
      · intro hh
        exact absurd rfl (hh 45 List.head?_cons)
    · have hsep : isSep c = false :=
        isSep_eq_false_of_outChar (hmem c (List.mem_cons_self c t)) hc
      constructor
      · rw [replaceSepRunsGo, hsep]
        show c :: replaceSepRunsGo false t = c :: t
        rw [ihf]
      · intro _
        rw [replaceSepRunsGo, hsep]
        show c :: replaceSepRunsGo false t = c :: t
        rw [ihf]

/-- Slugs are hyphen-run free. -/
theorem noDH_slugify (s : List Nat) : noDH (slugify s) := by
  unfold slugify replaceEdgeHyphens replaceSepRuns
  exact noDH_dropTrailWhile (noDH_dropWhile (noDH_replaceSepRunsGo _ false))

/-- Slugs do not start with a hyphen. -/
theorem slugify_headQ {s : List Nat} {a : Nat}
    (h : (slugify s).head? = some a) : a ≠ 45 := by
  unfold slugify replaceEdgeHyphens at h
  obtain ⟨t, ht⟩ := dropTrailWhile_append (fun n => n == 45)
    ((replaceSepRuns (replaceDisallowed (jsTrim (s.map jsToLower)))).dropWhile
      fun n => n == 45)
  have := headQ_dropWhile (headQ_of_append ht h)
  simpa using this

/-- Slugs do not end with a hyphen. -/
theorem slugify_getLastQ {s : List Nat} {a : Nat}
    (h : (slugify s).getLast? = some a) : a ≠ 45 := by
  unfold slugify replaceEdgeHyphens at h
  have := getLastQ_dropTrailWhile h
  simpa using this

/-- C9: `slugify` is idempotent. -/
theorem slugify_idempotent (s : List Nat) :
    slugify (slugify s) = slugify s := by
  have hmem : ∀ a ∈ slugify s, outChar a := fun a ha => outChar_of_mem_slugify ha
  have hstep1 : (slugify s).map jsToLower = slugify s := by
    refine map_id_of fun a ha => ?_
    rcases hmem a ha with ⟨h1, h2⟩ | ⟨h1, h2⟩ | h1 <;>
      · unfold jsToLower
        rw [if_neg (by omega)]
  have hspace : ∀ a ∈ slugify s, jsIsSpace a = false :=
    fun a ha => jsIsSpace_eq_false_of_outChar (hmem a ha)
  have hstep2 : jsTrim (slugify s) = slugify s := by
    unfold jsTrim
    rw [dropWhile_id_of fun a ha => hspace a (mem_of_headQ ha)]
    exact dropTrailWhile_id_of fun a ha => hspace a (mem_of_getLastQ ha)
  have hstep3 : replaceDisallowed (slugify s) = slugify s :=
    filter_id_of fun a ha => allowed_of_outChar (hmem a ha)
  have hstep4 : replaceSepRuns (slugify s) = slugify s :=
    (replaceSepRunsGo_id (slugify s) hmem (noDH_slugify s)).1
  have hstep5 : replaceEdgeHyphens (slugify s) = slugify s := by
    unfold replaceEdgeHyphens
    rw [dropWhile_id_of fun a ha => by simpa using slugify_headQ ha]
    exact dropTrailWhile_id_of fun a ha => by simpa using slugify_getLastQ ha
  calc slugify (slugify s)
      = replaceEdgeHyphens (replaceSepRuns (replaceDisallowed
          (jsTrim ((slugify s).map jsToLower)))) := rfl
    _ = slugify s := by rw [hstep1, hstep2, hstep3, hstep4, hstep5]

/-- The spec's concrete `slugify` examples hold in the model. -/
theorem slugify_spec_examples :
    slugify (codes "  Hello, World!  ") = codes "hello-world" ∧
    slugify (codes "Already-Slugged") = codes "already-slugged" ∧
    slugify (codes "___multi   spaces---dash") = codes "multi-spaces-dash" := by
  refine ⟨?_, ?_, ?_⟩ <;> decide

end Api
